import Mathlib

/-!
Verification of the living-doc-generator GitHub Action wrapper and its
mining/consolidation/render pipeline.

The JavaScript wrapper sources (`dist/index.js` variants, `index.js`) are
embedded directly as Lean functions on explicit input records.  Strings are
modelled as `List Char`.  The Python pipeline (`scripts/controller.py`) is not
part of the repository snapshot; the parts of it that claims need are
modelled from the specification and marked as such in their doc comments.
-/

set_option maxRecDepth 100000

deriving instance DecidableEq for Except

namespace LivingDoc

/-- Whitespace test matching the JavaScript `\s`/`trim` character class on the
ASCII range (space, tab, line feed, carriage return, vertical tab, form feed). -/
def isSpaceChar (c : Char) : Bool :=
  c == ' ' || c == '\t' || c == '\n' || c == '\r' || c == '\x0b' || c == '\x0c'

/-- Drop leading whitespace, as the greedy `\s*` of the extraction regex does. -/
def dropWs (l : List Char) : List Char := l.dropWhile isSpaceChar

/-- JavaScript `String.prototype.trim`: remove whitespace from both ends. -/
def trimWs (l : List Char) : List Char := ((l.dropWhile isSpaceChar).reverse.dropWhile isSpaceChar).reverse

/-- Substring test: `containsSub needle hay` holds when `needle` occurs
contiguously inside `hay`.  Models the fact that the wrapper regex
`/Living documentation generated on the path:\s*(.*)/` matches an unanchored
occurrence of its literal head anywhere in the subject. -/
def containsSub (needle : List Char) : List Char → Bool
  | [] => needle.isEmpty
  | c :: cs => needle.isPrefixOf (c :: cs) || containsSub needle cs

/-- The literal head of the extraction regex in `extractPath` (dist/index.js). -/
def pathMarker : List Char := "Living documentation generated on the path:".toList

/-- Scan for the first occurrence of `pathMarker` and return the text after it,
mirroring how the regex engine finds the leftmost match of the literal head. -/
def afterMarker : List Char → Option (List Char)
  | [] => none
  | c :: cs =>
    if pathMarker.isPrefixOf (c :: cs) then some ((c :: cs).drop pathMarker.length)
    else afterMarker cs

/-- Embedding of `extractPath` from dist/index.js:
`output.match(/Living documentation generated on the path:\s*(.*)/)`; on a
match it returns `match[1].trim()`, otherwise it throws
"Generated path to Living documentation not found.".  After the literal head,
`\s*` greedily consumes whitespace (including newlines) and `(.*)` captures up
to the next line terminator. -/
def extractPath (output : List Char) : Except (List Char) (List Char) :=
  match afterMarker output with
  | some rest =>
      .ok (trimWs ((dropWs rest).takeWhile (fun c => !(c == '\n' || c == '\r'))))
  | none => .error ("Generated path to Living documentation not found.".toList)

/-- Result of `child_process.exec`: `exitError` is `some code` exactly when the
child failed (non-zero exit or spawn error), plus the captured stdio texts. -/
structure ExecResult where
  exitError : Option Int
  stdout : List Char
  stderr : List Char
  deriving DecidableEq

/-- What the wrapper reports back to the workflow: whether `core.setFailed` was
called, and the value given to `core.setOutput("documentation-path", ...)`,
if any. -/
structure RunReport where
  failed : Bool
  docPath : Option (List Char)
  deriving DecidableEq

/-- Embedding of the `exec` callback of the dist/index.js variant that uses
`extractPath`: on `error` it logs and calls `setFailed` (no early return); on
non-empty `stderr` it calls `setFailed` (no early return); then it always tries
`extractPath(stdout)`, setting the `documentation-path` output on success and
`setFailed` on extraction failure. -/
def runCallback003 (r : ExecResult) : RunReport :=
  let failedAfterError := r.exitError.isSome
  let failedAfterStderr := failedAfterError || !r.stderr.isEmpty
  match extractPath r.stdout with
  | .ok p => { failed := failedAfterStderr, docPath := some p }
  | .error _ => { failed := true, docPath := none }

/-- Embedding of the `exec` callback of the index.js / part_000 variants: on
`error` it calls `setFailed` and returns; on non-empty `stderr` it calls
`setFailed` and returns; otherwise it sets the output to `stdout.trim()`. -/
def runCallback000 (r : ExecResult) : RunReport :=
  if r.exitError.isSome then { failed := true, docPath := none }
  else if !r.stderr.isEmpty then { failed := true, docPath := none }
  else { failed := false, docPath := some (trimWs r.stdout) }

/-- Embedding of the `exec` callback of the dist variant without `extractPath`
(part_004): `setFailed` on error and on non-empty stderr, with no early return,
then unconditionally `setOutput("documentation-path", stdout.trim())`. -/
def runCallback004 (r : ExecResult) : RunReport :=
  { failed := r.exitError.isSome || !r.stderr.isEmpty
    docPath := some (trimWs r.stdout) }

/-- One input declaration of the action metadata (`action.yml`): its name,
whether it is required, and its default value rendered as text, if any. -/
structure ActionInput where
  name : List Char
  required : Bool
  dflt : Option (List Char)
  deriving DecidableEq

/-- Transcription of the `inputs:` block of the action metadata file:
GITHUB_TOKEN (required), repositories (required), project-state-mining
(optional, default true), projects-title-filter (optional, default `[]`),
milestones-as-chapters (optional, default false). -/
def actionInputs : List ActionInput :=
  [ { name := "GITHUB_TOKEN".toList, required := true, dflt := none },
    { name := "repositories".toList, required := true, dflt := none },
    { name := "project-state-mining".toList, required := false, dflt := some ("true".toList) },
    { name := "projects-title-filter".toList, required := false, dflt := some ("[]".toList) },
    { name := "milestones-as-chapters".toList, required := false, dflt := some ("false".toList) } ]

/-- Look up a declared input by name. -/
def findInput (n : List Char) : Option ActionInput :=
  actionInputs.find? (fun i => i.name == n)

/-- The double-quote character. -/
def dquoteC : Char := Char.ofNat 34

/-- The single-quote character. -/
def squoteC : Char := Char.ofNat 39

/-- Literal text of the command template before the script path. -/
def cmdSeg0 : List Char := "python3 ".toList

/-- Literal text between the script path and the token value (the JavaScript
line continuation leaves the 12-space indentation of the next line in place). -/
def cmdSeg1 : List Char := " ".toList ++ "            --github-token \"".toList

/-- Literal text between the token value and the project-state-mining value. -/
def cmdSeg2 : List Char := "\" ".toList ++ "            --project-state-mining \"".toList

/-- Literal text between project-state-mining and projects-title-filter. -/
def cmdSeg3 : List Char := "\" ".toList ++ "            --projects-title-filter \"".toList

/-- Literal text between projects-title-filter and milestones-as-chapters. -/
def cmdSeg4 : List Char := "\" ".toList ++ "            --milestones-as-chapters \"".toList

/-- Literal text between milestones-as-chapters and the repositories value;
the repositories value is wrapped in single quotes in the source template. -/
def cmdSeg5 : List Char := "\" ".toList ++ "            --repositories ".toList ++ [squoteC]

/-- Literal text closing the command (the closing single quote). -/
def cmdSeg6 : List Char := [squoteC]

/-- Embedding of the command template of dist/index.js:
the five raw input strings are interpolated verbatim between fixed literal
segments, with no escaping or validation of their contents. -/
def buildCommand (script tok psm ptf mac repos : List Char) : List Char :=
  cmdSeg0 ++ script ++ cmdSeg1 ++ tok ++ cmdSeg2 ++ psm ++ cmdSeg3 ++ ptf ++
    cmdSeg4 ++ mac ++ cmdSeg5 ++ repos ++ cmdSeg6

/-- The argument vector the wrapper intends to hand to the child process: the
interpreter, the script path, and each flag followed by its raw input value. -/
def intendedArgv (script tok psm ptf mac repos : List Char) : List (List Char) :=
  [ "python3".toList, script,
    "--github-token".toList, tok,
    "--project-state-mining".toList, psm,
    "--projects-title-filter".toList, ptf,
    "--milestones-as-chapters".toList, mac,
    "--repositories".toList, repos ]

/-- Quoting state of the shell word scanner. -/
inductive ShellMode where
  | norm
  | insingle
  | indouble
  deriving DecidableEq

/-- Field splitting of a POSIX shell command line (the semantics `exec` applies
via `/bin/sh -c`), restricted to the constructs the command template uses:
unquoted whitespace separates words, and single- or double-quoted spans are
taken literally.  `started` records whether the current word has begun, so
that an empty quoted span still yields a field. -/
def shellRun : ShellMode → Bool → List Char → List Char → List (List Char)
  | .norm, started, acc, [] => if started then [acc.reverse] else []
  | .norm, started, acc, c :: cs =>
    if c == ' ' || c == '\t' || c == '\n' then
      if started then acc.reverse :: shellRun .norm false [] cs
      else shellRun .norm false [] cs
    else if c == squoteC then shellRun .insingle true acc cs
    else if c == dquoteC then shellRun .indouble true acc cs
    else shellRun .norm true (c :: acc) cs
  | .insingle, _, acc, [] => [acc.reverse]
  | .insingle, _, acc, c :: cs =>
    if c == squoteC then shellRun .norm true acc cs
    else shellRun .insingle true (c :: acc) cs
  | .indouble, _, acc, [] => [acc.reverse]
  | .indouble, _, acc, c :: cs =>
    if c == dquoteC then shellRun .norm true acc cs
    else shellRun .indouble true (c :: acc) cs

/-- The fields the shell parses out of a command line. -/
def shellFields (cmd : List Char) : List (List Char) := shellRun .norm false [] cmd

/-- A script path for concrete evaluation of the command construction. -/
def cScript : List Char := "/action/dist/controller.py".toList

/-- A token value containing a double quote, e.g. a pasted credential. -/
def cTokenQ : List Char := "a".toList ++ [dquoteC] ++ "b".toList

/-- Concrete values of the remaining inputs (their documented defaults). -/
def cPsm : List Char := "true".toList

/-- Concrete projects-title-filter value. -/
def cPtf : List Char := "[]".toList

/-- Concrete milestones-as-chapters value. -/
def cMac : List Char := "false".toList

/-- Concrete repositories value. -/
def cRepos : List Char := "[]".toList

/-- Transcription of the Issue Summary page template supplied with the action. -/
def issueSummaryTemplate : List Char :=
  ("---\ntitle: \"Issue Summary\"\ntoolbar_title: \"Issue Summary\"\ndescription_title: \"Brief overview of all mined issues.\"\ndescription: \"This is a comprehensive list and brief overview of all issues.\"\ndate: \"{date}\"\nweight: 0\n---\n\n# Issue Summary page\n\nOur project is designed with a myriad of issues to ensure seamless user experience, top-tier functionality, and efficient operations. Here, you\x27ll find a summarized list of all these issues, their brief descriptions, and links to their detailed documentation.\n\n{table-of-contents}\n\n## Issue Overview\n\n{issues}\n").toList

/-- Transcription of the Feature Summary page template supplied with the action. -/
def featureSummaryTemplate : List Char :=
  ("---\ntitle: \"Feature Summary\"\ntoolbar_title: \"Feature Summary\"\ndescription_title: \"Brief overview of all features.\"\ndescription: \"This is a comprehensive list and brief overview of all features.\"\ndate: \"{date}\"\nweight: 0\n---\n\n# Feature Summary page\n\nOur project is designed with a myriad of features to ensure seamless user experience, top-tier functionality, and efficient operations. Here, you\x27ll find a summarized list of all these features, their brief descriptions, and links to their detailed documentation.\n\n{table-of-contents}\n\n## Feature overview\n\n{features}").toList

/-- The table-of-contents placeholder token. -/
def tocToken : List Char := "{table-of-contents}".toList

/-- The date placeholder token. -/
def dateToken : List Char := "{date}".toList

/-- The issues placeholder token of the Issue Summary template. -/
def issuesToken : List Char := "{issues}".toList

/-- The features placeholder token of the Feature Summary template. -/
def featuresToken : List Char := "{features}".toList

/-- Fuel-indexed worker for `replaceAll`: each step consumes at least one
character of the subject, so any fuel exceeding the subject length is enough. -/
def replaceAllF (pat repl : List Char) : Nat → List Char → List Char
  | 0, s => s
  | _ + 1, [] => []
  | fuel + 1, c :: cs =>
    if !pat.isEmpty && pat.isPrefixOf (c :: cs) then
      repl ++ replaceAllF pat repl fuel ((c :: cs).drop pat.length)
    else
      c :: replaceAllF pat repl fuel cs

/-- Replace every occurrence of `pat` in the subject with `repl`, scanning left
to right (the semantics of a global string substitution). -/
def replaceAll (pat repl s : List Char) : List Char :=
  replaceAllF pat repl (s.length + 1) s

/-- Modelled from the spec: the Template Renderer lives in
`scripts/controller.py`, which is absent from this snapshot.  Per the spec it
populates the Issue Summary page by substituting the placeholder tokens
`{table-of-contents}`, `{issues}` and `{date}` with generated content. -/
def renderIssueSummary (tmpl toc issues date : List Char) : List Char :=
  replaceAll dateToken date (replaceAll issuesToken issues (replaceAll tocToken toc tmpl))

/-- Modelled from the spec: the Feature Summary page is populated by
substituting `{table-of-contents}`, `{features}` and `{date}`. -/
def renderFeatureSummary (tmpl toc features date : List Char) : List Char :=
  replaceAll dateToken date (replaceAll featuresToken features (replaceAll tocToken toc tmpl))

/-- A milestone as the data model describes it: title and optional due date
(days encoded as a number). -/
structure Milestone where
  title : List Char
  dueDate : Option Nat
  deriving DecidableEq

/-- An Issue of the data model: repository reference, number, title, body,
labels, open/closed state, assignees, and optional linked milestone.
Identity is (org, repo, number). -/
structure Issue where
  orgName : List Char
  repoName : List Char
  number : Nat
  title : List Char
  body : List Char
  labels : List (List Char)
  isOpen : Bool
  assignees : List (List Char)
  milestone : Option Milestone
  deriving DecidableEq

/-- A ProjectItem of the data model: the Issue it references, the project it
belongs to (identified by its title), and its field values. -/
structure ProjectItem where
  issueOrg : List Char
  issueRepo : List Char
  issueNumber : Nat
  projectTitle : List Char
  fieldValues : List (List Char × List Char)
  deriving DecidableEq

/-- The materialized join of an Issue with its applicable ProjectItems. -/
structure ConsolidatedFeature where
  issue : Issue
  projectItems : List ProjectItem
  deriving DecidableEq

/-- The composite identity of an Issue: (org, repo, number). -/
def issueKey (i : Issue) : List Char × List Char × Nat :=
  (i.orgName, i.repoName, i.number)

/-- Modelled from the spec: `scripts/controller.py` (the Consolidator) is
absent from this snapshot.  Per the spec, with an empty title filter every
ProjectItem is retained; with a non-empty filter, ProjectItems whose
project title is not in the filter set (case-sensitive, exact match) are
discarded. -/
def filterProjectItems (titleFilter : List (List Char)) (items : List ProjectItem) : List ProjectItem :=
  if titleFilter = [] then items
  else items.filter (fun it => decide (it.projectTitle ∈ titleFilter))

/-- Whether a ProjectItem references the given Issue. -/
def itemMatchesIssue (it : ProjectItem) (i : Issue) : Bool :=
  it.issueOrg == i.orgName && it.issueRepo == i.repoName && it.issueNumber == i.number

/-- Modelled from the spec: the Consolidator merges each Issue with its
surviving ProjectItems into one ConsolidatedFeature; discarding a ProjectItem
never discards the Issue itself. -/
def consolidate (titleFilter : List (List Char)) (issues : List Issue)
    (items : List ProjectItem) : List ConsolidatedFeature :=
  issues.map (fun i =>
    { issue := i
      projectItems := (filterProjectItems titleFilter items).filter (fun it => itemMatchesIssue it i) })

/-- Chapter title of the designated container for features without a milestone. -/
def unassignedTitle : List Char := "Unassigned".toList

/-- Title of the single flat chapter used when milestones-as-chapters is off. -/
def flatChapterTitle : List Char := "Issues".toList

/-- The chapter a feature belongs to: its milestone title, or Unassigned. -/
def chapterKeyOf (f : ConsolidatedFeature) : List Char :=
  match f.issue.milestone with
  | some m => m.title
  | none => unassignedTitle

/-- A chapter of the rendered documentation: a named, ordered group of
features, with the due date of its milestone when it has one. -/
structure Chapter where
  title : List Char
  dueDate : Option Nat
  features : List ConsolidatedFeature
  deriving DecidableEq

/-- Due date attached to the chapter named `k`: that of the first milestone of
that title among the features. -/
def chapterDueOf (fs : List ConsolidatedFeature) (k : List Char) : Option Nat :=
  ((fs.filterMap (fun f => f.issue.milestone)).find? (fun m => m.title == k)).bind Milestone.dueDate

/-- Sort key of a feature: repository (org, then repo name), then issue
number, lexicographically. -/
def featKey (f : ConsolidatedFeature) : Lex ((List Char) × Lex ((List Char) × Nat)) :=
  toLex (f.issue.orgName, toLex (f.issue.repoName, f.issue.number))

/-- The feature ordering relation used for sorting. -/
def featureRel (a b : ConsolidatedFeature) : Prop := featKey a ≤ featKey b

instance : DecidableRel featureRel :=
  fun a b => inferInstanceAs (Decidable (featKey a ≤ featKey b))

/-- Features in ascending (repository, issue number) order, as the spec
prescribes for the order inside a chapter. -/
def sortFeatures (fs : List ConsolidatedFeature) : List ConsolidatedFeature :=
  List.insertionSort featureRel fs

/-- Sort key of a chapter: dated chapters first in ascending due date, undated
chapters last, ties broken by title. -/
def chapterSortKey (c : Chapter) : Lex (Nat × Lex (Nat × List Char)) :=
  toLex ((match c.dueDate with | some _ => 0 | none => 1),
         toLex (c.dueDate.getD 0, c.title))

/-- The chapter ordering relation used for sorting. -/
def chapterRel (a b : Chapter) : Prop := chapterSortKey a ≤ chapterSortKey b

instance : DecidableRel chapterRel :=
  fun a b => inferInstanceAs (Decidable (chapterSortKey a ≤ chapterSortKey b))

/-- Modelled from the spec: one chapter per distinct milestone title occurring
among the features (plus Unassigned), each holding exactly the features whose
milestone maps to that title. -/
def buildChapters (fs : List ConsolidatedFeature) : List Chapter :=
  ((fs.map chapterKeyOf).dedup).map (fun k =>
    { title := k
      dueDate := chapterDueOf fs k
      features := fs.filter (fun f => decide (chapterKeyOf f = k)) })

/-- Modelled from the spec: with milestones-as-chapters on, features are
grouped by milestone into chapters ordered by due date then title, features
inside each chapter ordered by repository then issue number; with it off, a
single flat chapter holds all features in that same order. -/
def groupByMilestone (milestonesAsChapters : Bool) (fs : List ConsolidatedFeature) : List Chapter :=
  let sorted := sortFeatures fs
  if milestonesAsChapters then
    List.insertionSort chapterRel (buildChapters sorted)
  else
    [{ title := flatChapterTitle, dueDate := none, features := sorted }]

/-- The typed configuration the pipeline consumes. -/
structure MinedConfig where
  projectStateMining : Bool
  titleFilter : List (List Char)
  milestonesAsChapters : Bool
  deriving DecidableEq

/-- Decimal rendering of an issue number. -/
def numText (n : Nat) : List Char := (Nat.repr n).toList

/-- Modelled from the spec: table-of-contents content generated from the
chapter list. -/
def generateTOC (chapters : List Chapter) : List Char :=
  (chapters.map (fun c => "- ".toList ++ c.title ++ "\n".toList)).flatten

/-- Modelled from the spec: one table line per feature. -/
def featureLine (f : ConsolidatedFeature) : List Char :=
  "| ".toList ++ f.issue.orgName ++ "/".toList ++ f.issue.repoName ++
    "#".toList ++ numText f.issue.number ++ " | ".toList ++ f.issue.title ++ " |\n".toList

/-- Modelled from the spec: the overview table, chapter by chapter. -/
def overviewTable (chapters : List Chapter) : List Char :=
  (chapters.map (fun c =>
    "## ".toList ++ c.title ++ "\n".toList ++ (c.features.map featureLine).flatten)).flatten

/-- Modelled from the spec: the name of a per-feature detail page. -/
def featurePageName (f : ConsolidatedFeature) : List Char :=
  f.issue.orgName ++ "/".toList ++ f.issue.repoName ++ "/".toList ++
    numText f.issue.number ++ ".md".toList

/-- Modelled from the spec: the content of a per-feature detail page — the
issue fields followed by the project-derived field values. -/
def renderFeaturePage (f : ConsolidatedFeature) : List Char :=
  "# ".toList ++ f.issue.title ++ "\n".toList ++ f.issue.body ++ "\n".toList ++
    (f.projectItems.map (fun it =>
      (it.fieldValues.map (fun fv => fv.1 ++ ": ".toList ++ fv.2 ++ "\n".toList)).flatten)).flatten

/-- Modelled from the spec: render the page tree from the finished chapter
list — the two summary pages first, then one detail page per feature in
chapter order. -/
def renderPages (chapters : List Chapter) (date : List Char) : List (List Char × List Char) :=
  ("Issue Summary.md".toList,
      renderIssueSummary issueSummaryTemplate (generateTOC chapters) (overviewTable chapters) date)
    :: ("Feature Summary.md".toList,
      renderFeatureSummary featureSummaryTemplate (generateTOC chapters) (overviewTable chapters) date)
    :: (chapters.map (fun c => c.features.map (fun f => (featurePageName f, renderFeaturePage f)))).flatten

/-- Modelled from the spec: the full pipeline from mined data and typed
configuration to a list of (page name, markdown text) pairs.  When
project-state-mining is off, project items are dropped entirely.  The date
placed in the summary pages is an explicit input, since rendering per the
spec is a stateless pure function. -/
def renderDocumentation (cfg : MinedConfig) (date : List Char)
    (issues : List Issue) (items : List ProjectItem) : List (List Char × List Char) :=
  renderPages
    (groupByMilestone cfg.milestonesAsChapters
      (consolidate cfg.titleFilter issues (if cfg.projectStateMining then items else [])))
    date

/-- Minimal JSON value grammar covering the action inputs. -/
inductive Json where
  | str : List Char → Json
  | num : Nat → Json
  | boolean : Bool → Json
  | null : Json
  | arr : List Json → Json
  | obj : List (List Char × Json) → Json

/-- The opening-brace character. -/
def lbraceC : Char := Char.ofNat 123

/-- The closing-brace character. -/
def rbraceC : Char := Char.ofNat 125

/-- Skip JSON insignificant whitespace. -/
def skipWsJ (s : List Char) : List Char := s.dropWhile isSpaceChar

/-- Parse the remainder of a JSON string literal after its opening quote
(escape sequences are not needed by the inputs modelled here). -/
def parseStringRest : List Char → Option (List Char × List Char)
  | [] => none
  | c :: cs =>
    if c == dquoteC then some ([], cs)
    else
      match parseStringRest cs with
      | some (t, r) => some (c :: t, r)
      | none => none

/-- Value of a run of decimal digits. -/
def digitsToNat (ds : List Char) : Nat :=
  ds.foldl (fun acc c => acc * 10 + (c.toNat - 48)) 0

mutual

/-- Modelled from the spec: `scripts/controller.py` parses the JSON inputs at
the boundary; this is a fuel-indexed recursive-descent parser for one value. -/
def parseValue : Nat → List Char → Option (Json × List Char)
  | 0, _ => none
  | fuel + 1, s =>
    match s with
    | [] => none
    | c :: cs =>
      if c == dquoteC then
        match parseStringRest cs with
        | some (t, r) => some (.str t, r)
        | none => none
      else if c == '[' then
        match skipWsJ cs with
        | c2 :: cs2 =>
          if c2 == ']' then some (.arr [], cs2)
          else
            match parseElems fuel (c2 :: cs2) with
            | some (es, r) => some (.arr es, r)
            | none => none
        | [] => none
      else if c == lbraceC then
        match skipWsJ cs with
        | c2 :: cs2 =>
          if c2 == rbraceC then some (.obj [], cs2)
          else
            match parseMembers fuel (c2 :: cs2) with
            | some (ms, r) => some (.obj ms, r)
            | none => none
        | [] => none
      else if "true".toList.isPrefixOf s then some (.boolean true, s.drop 4)
      else if "false".toList.isPrefixOf s then some (.boolean false, s.drop 5)
      else if "null".toList.isPrefixOf s then some (.null, s.drop 4)
      else if c.isDigit then
        some (.num (digitsToNat (s.takeWhile Char.isDigit)), s.dropWhile Char.isDigit)
      else none

/-- Parse the non-empty element list of a JSON array, up to and including the
closing bracket. -/
def parseElems : Nat → List Char → Option (List Json × List Char)
  | 0, _ => none
  | fuel + 1, s =>
    match parseValue fuel (skipWsJ s) with
    | some (j, r) =>
      match skipWsJ r with
      | c :: cs =>
        if c == ',' then
          match parseElems fuel cs with
          | some (es, rr) => some (j :: es, rr)
          | none => none
        else if c == ']' then some ([j], cs)
        else none
      | [] => none
    | none => none

/-- Parse the non-empty member list of a JSON object, up to and including the
closing brace. -/
def parseMembers : Nat → List Char → Option (List (List Char × Json) × List Char)
  | 0, _ => none
  | fuel + 1, s =>
    match skipWsJ s with
    | c :: cs =>
      if c == dquoteC then
        match parseStringRest cs with
        | some (k, r) =>
          match skipWsJ r with
          | c2 :: cs2 =>
            if c2 == ':' then
              match parseValue fuel (skipWsJ cs2) with
              | some (v, r2) =>
                match skipWsJ r2 with
                | c3 :: cs3 =>
                  if c3 == ',' then
                    match parseMembers fuel cs3 with
                    | some (ms, rr) => some ((k, v) :: ms, rr)
                    | none => none
                  else if c3 == rbraceC then some ([(k, v)], cs3)
                  else none
                | [] => none
              | none => none
            else none
          | [] => none
        | none => none
      else none
    | [] => none

end

/-- Parse a complete JSON document; `none` means malformed JSON. -/
def parseJson (s : List Char) : Option Json :=
  match parseValue (s.length + 2) (skipWsJ s) with
  | some (j, r) => if skipWsJ r = [] then some j else none
  | none => none

/-- A validated repository entry of the configuration. -/
structure RepoDescriptor where
  orgName : List Char
  repoName : List Char
  queryLabels : List (List Char)
  deriving DecidableEq

/-- A configuration error, naming the offending field. -/
structure ConfigError where
  field : List Char
  message : List Char
  deriving DecidableEq

/-- Look up an object member by key. -/
def getMember (n : List Char) (ms : List (List Char × Json)) : Option Json :=
  (ms.find? (fun m => m.1 == n)).map (fun m => m.2)

/-- Require every element to be a JSON string. -/
def asStringList : List Json → Option (List (List Char))
  | [] => some []
  | .str s :: js =>
    match asStringList js with
    | some ss => some (s :: ss)
    | none => none
  | _ :: _ => none

/-- Modelled from the spec: validation of the members of one repository entry
object — it must carry orgName, repoName and a non-empty queryLabels string
array; failures produce a ConfigError naming the offending field. -/
def parseRepoObj (ms : List (List Char × Json)) : Except ConfigError RepoDescriptor :=
  match getMember ("orgName".toList) ms with
  | some (.str org) =>
    match getMember ("repoName".toList) ms with
    | some (.str repo) =>
      match getMember ("queryLabels".toList) ms with
      | some (.arr ls) =>
        match asStringList ls with
        | some labels =>
          if labels = [] then .error ⟨"queryLabels".toList, "empty label set".toList⟩
          else .ok ⟨org, repo, labels⟩
        | none => .error ⟨"queryLabels".toList, "must be an array of strings".toList⟩
      | some _ => .error ⟨"queryLabels".toList, "must be an array of strings".toList⟩
      | none => .error ⟨"queryLabels".toList, "missing required key".toList⟩
    | some _ => .error ⟨"repoName".toList, "must be a string".toList⟩
    | none => .error ⟨"repoName".toList, "missing required key".toList⟩
  | some _ => .error ⟨"orgName".toList, "must be a string".toList⟩
  | none => .error ⟨"orgName".toList, "missing required key".toList⟩

/-- Modelled from the spec: validation of one repository entry — a non-object
entry is rejected outright. -/
def parseRepo (j : Json) : Except ConfigError RepoDescriptor :=
  match j with
  | .obj ms => parseRepoObj ms
  | _ => .error ⟨"repositories".toList, "entry is not an object".toList⟩

/-- Validate every entry, stopping at the first offending one. -/
def parseRepos : List Json → Except ConfigError (List RepoDescriptor)
  | [] => .ok []
  | j :: js =>
    match parseRepo j with
    | .error e => .error e
    | .ok r =>
      match parseRepos js with
      | .error e => .error e
      | .ok rs => .ok (r :: rs)

/-- Modelled from the spec: the Configuration Resolver's treatment of the
repositories input — parse the JSON, require a non-empty ordered sequence of
well-formed RepositoryDescriptor entries, and fail with a ConfigError naming
the offending field otherwise.  No network access is involved anywhere in the
resolver. -/
def resolveRepositories (raw : List Char) : Except ConfigError (List RepoDescriptor) :=
  match parseJson raw with
  | none => .error ⟨"repositories".toList, "malformed JSON".toList⟩
  | some (.arr es) =>
    match parseRepos es with
    | .error e => .error e
    | .ok rs =>
      if rs = [] then .error ⟨"repositories".toList, "must be non-empty".toList⟩
      else .ok rs
  | some _ => .error ⟨"repositories".toList, "must be a JSON array".toList⟩

/-- Shape check of one repository entry object following the claim's wording:
the required keys must be present with their expected types. -/
def repoShapeObj (ms : List (List Char × Json)) : Option RepoDescriptor :=
  match getMember ("orgName".toList) ms with
  | some (.str org) =>
    match getMember ("repoName".toList) ms with
    | some (.str repo) =>
      match getMember ("queryLabels".toList) ms with
      | some (.arr ls) =>
        match asStringList ls with
        | some labels => some ⟨org, repo, labels⟩
        | none => none
      | _ => none
    | _ => none
  | _ => none

/-- Shape check of one repository entry following the claim's wording: the
entry must be an object carrying the required keys with their expected types
(the "missing a required key / malformed" conditions of the claim). -/
def repoShape (j : Json) : Option RepoDescriptor :=
  match j with
  | .obj ms => repoShapeObj ms
  | _ => none

/-- Whether one entry triggers a failure per the claim's wording: it is
ill-shaped, or its label set is empty. -/
def entryBad (j : Json) : Bool :=
  match repoShape j with
  | none => true
  | some rd => rd.queryLabels.isEmpty

/-- The failure condition exactly as the claim words it: the input is
malformed JSON (including a top-level value that is not an array), some entry
is missing a required key or ill-formed, or some entry has an empty label set. -/
def claimedFailCond (raw : List Char) : Bool :=
  match parseJson raw with
  | none => true
  | some (.arr es) => es.any entryBad
  | some _ => true

/-- Whether the input parses to the empty JSON array. -/
def parsedEmptyArr (raw : List Char) : Bool :=
  match parseJson raw with
  | some (.arr []) => true
  | _ => false

/-- The empty-array repositories input. -/
def emptyArrInput : List Char := "[]".toList

/-- A repositories input whose only entry lacks the repoName key. -/
def jsonMissingKey : List Char :=
  "[\x7b\"orgName\": \"absa\", \"queryLabels\": [\"feature\"]\x7d]".toList

/-- A repositories input whose only entry has an empty label set. -/
def jsonEmptyLabels : List Char :=
  "[\x7b\"orgName\": \"absa\", \"repoName\": \"repo-a\", \"queryLabels\": []\x7d]".toList

/-- A syntactically malformed repositories input. -/
def jsonMalformed : List Char := "[not json".toList

/-- A well-formed repositories input with one complete entry. -/
def jsonValidRepos : List Char :=
  "[\x7b\"orgName\": \"absa\", \"repoName\": \"repo-a\", \"queryLabels\": [\"feature\"]\x7d]".toList

/-- A milestone used in concrete scenarios. -/
def msV1 : Milestone := { title := "v1".toList, dueDate := some 20240601 }

/-- A concrete issue carrying the v1 milestone. -/
def issueA : Issue :=
  { orgName := "absa".toList, repoName := "repo-a".toList, number := 1
    title := "Feature A".toList, body := "Body A".toList
    labels := ["feature".toList], isOpen := true, assignees := []
    milestone := some msV1 }

/-- A concrete issue without a milestone. -/
def issueB : Issue :=
  { orgName := "absa".toList, repoName := "repo-a".toList, number := 2
    title := "Feature B".toList, body := "Body B".toList
    labels := ["feature".toList], isOpen := true, assignees := []
    milestone := none }

/-- A project item of project "Project X" referencing issueA. -/
def itemA : ProjectItem :=
  { issueOrg := "absa".toList, issueRepo := "repo-a".toList, issueNumber := 1
    projectTitle := "Project X".toList
    fieldValues := [("Status".toList, "In Progress".toList)] }

/-- issueA consolidated with itemA. -/
def featA : ConsolidatedFeature := { issue := issueA, projectItems := [itemA] }

/-- issueB consolidated with no project data (no milestone either). -/
def featU : ConsolidatedFeature := { issue := issueB, projectItems := [] }

/-- A successful child stdout for concrete wrapper scenarios. -/
def okStdout : List Char :=
  "Living documentation generated on the path: /github/workspace/output\n".toList

instance : IsTotal ConsolidatedFeature featureRel :=
  ⟨fun a b => le_total (featKey a) (featKey b)⟩

instance : IsTrans ConsolidatedFeature featureRel :=
  ⟨fun _ _ _ h₁ h₂ => le_trans h₁ h₂⟩

instance : IsTotal Chapter chapterRel :=
  ⟨fun a b => le_total (chapterSortKey a) (chapterSortKey b)⟩

instance : IsTrans Chapter chapterRel :=
  ⟨fun _ _ _ h₁ h₂ => le_trans h₁ h₂⟩

/-- The summary page kinds supplied with the action, as (kind, template) pairs. -/
def summaryTemplates : List (List Char × List Char) :=
  [("Issue Summary".toList, issueSummaryTemplate),
   ("Feature Summary".toList, featureSummaryTemplate)]

theorem afterMarker_contains (out : List Char) :
    (afterMarker out).isSome = containsSub pathMarker out := by
  induction out with
  | nil => decide
  | cons c cs ih =>
    simp only [afterMarker, containsSub]
    cases hp : pathMarker.isPrefixOf (c :: cs) <;> simp [hp, ih]

theorem afterMarker_append (s : List Char) : afterMarker (pathMarker ++ s) = some s := by
  have hpre : pathMarker.isPrefixOf (pathMarker ++ s) = true := by
    rw [List.isPrefixOf_iff_prefix]
    exact List.prefix_append _ _
  have hdrop : (pathMarker ++ s).drop pathMarker.length = s := List.drop_left _ _
  obtain ⟨c, cs, hm⟩ : ∃ c cs, pathMarker ++ s = c :: cs := by
    cases h : pathMarker ++ s with
    | nil =>
      rcases List.append_eq_nil.mp h with ⟨h1, _⟩
      exact absurd h1 (by decide)
    | cons c cs => exact ⟨c, cs, rfl⟩
  rw [hm] at hpre hdrop ⊢
  simp only [afterMarker, hpre, if_true, hdrop]

theorem dropWs_idem (l : List Char) : dropWs (dropWs l) = dropWs l := by
  induction l with
  | nil => rfl
  | cons a l ih =>
    by_cases h : isSpaceChar a
    · simpa [dropWs, List.dropWhile_cons, h] using ih
    · simp [dropWs, List.dropWhile_cons, h]

/-- Claim C1: `extractPath` succeeds exactly when the marker
`Living documentation generated on the path:` occurs in the child's stdout —
it raises its extraction error if and only if no such line is present — and
when the marker is followed on its line by the generated path it returns that
trailing path trimmed of surrounding whitespace. -/
theorem extractPath_contract :
    (∀ out, (extractPath out).isOk = containsSub pathMarker out)
    ∧ (∀ s, s.all (fun c => !(c == '\n' || c == '\r')) = true →
        extractPath (pathMarker ++ s) = .ok (trimWs s)) := by
  constructor
  · intro out
    have h := afterMarker_contains out
    unfold extractPath
    cases ha : afterMarker out <;> rw [ha] at h <;> simpa [Except.isOk, Except.toBool] using h.symm
  · intro s hs
    unfold extractPath
    rw [afterMarker_append]
    show Except.ok (trimWs ((dropWs s).takeWhile (fun c => !(c == '\n' || c == '\r')))) = Except.ok (trimWs s)
    have hmem : ∀ c ∈ dropWs s, (!(c == '\n' || c == '\r')) = true := by
      intro c hc
      exact List.all_eq_true.mp hs c (List.dropWhile_sublist isSpaceChar |>.subset hc)
    have htake : (dropWs s).takeWhile (fun c => !(c == '\n' || c == '\r')) = dropWs s :=
      List.takeWhile_eq_self_iff.mpr hmem
    rw [htake]
    show Except.ok (trimWs (dropWs s)) = Except.ok (trimWs s)
    have : trimWs (dropWs s) = trimWs s := by
      simp only [trimWs, dropWs, dropWs_idem]
      rw [show (List.dropWhile isSpaceChar (List.dropWhile isSpaceChar s))
            = List.dropWhile isSpaceChar s from dropWs_idem s]
    rw [this]

/-- Witness for C1 at a concrete stdout tail. -/
theorem extractPath_contract_witness :
    extractPath (pathMarker ++ " /github/workspace/output ".toList)
      = .ok (trimWs (" /github/workspace/output ".toList)) :=
  extractPath_contract.2 _ (by decide)

/-- Claim C2 counterexample: a run whose child exits with status 0 but emits
diagnostic stderr text is reported as failed by the wrapper (both the
extractPath dist variant and the early-return variant), refuting the claim
that stderr is informational only. -/
theorem stderr_conflated_counterexample :
    (runCallback003 ⟨none, okStdout, "warning: deprecation\n".toList⟩).failed = true
    ∧ (runCallback000 ⟨none, okStdout, "warning: deprecation\n".toList⟩).failed = true := by
  decide

/-- Claim C2 (amended): in every wrapper variant, the presence of any
diagnostic text on stderr causes the run to be reported as failed even when
the child exits with status 0. -/
theorem stderr_conflated (out err : List Char) (h : err ≠ []) :
    (runCallback003 ⟨none, out, err⟩).failed = true
    ∧ (runCallback000 ⟨none, out, err⟩).failed = true
    ∧ (runCallback004 ⟨none, out, err⟩).failed = true := by
  have hne : err.isEmpty = false := by
    cases err with
    | nil => exact absurd rfl h
    | cons a l => rfl
  refine ⟨?_, ?_, ?_⟩
  · unfold runCallback003
    cases hx : extractPath out <;> simp [hne, hx]
  · simp [runCallback000, hne]
  · simp [runCallback004, hne]

/-- Witness for the amended C2 at a concrete stderr text. -/
theorem stderr_conflated_witness :
    (runCallback003 ⟨none, okStdout, "w".toList⟩).failed = true
    ∧ (runCallback000 ⟨none, okStdout, "w".toList⟩).failed = true
    ∧ (runCallback004 ⟨none, okStdout, "w".toList⟩).failed = true :=
  stderr_conflated okStdout ("w".toList) (by decide)

/-- Claim C3 counterexample: in the extractPath dist variant, a failed run
(non-zero exit) whose stdout still carries the marker line has
`documentation-path` set alongside the failure report. -/
theorem failure_reports_path_counterexample :
    (runCallback003 ⟨some 1, okStdout, []⟩).failed = true
    ∧ (runCallback003 ⟨some 1, okStdout, []⟩).docPath
        = some ("/github/workspace/output".toList) := by
  decide

/-- Claim C3 (amended): the early-return wrapper variants (index.js,
part_000) report no documentation path on any failed run, while the dist
variant without extraction (part_004) sets `documentation-path`
unconditionally, failure report or not. -/
theorem failure_reports_no_path :
    (∀ r, (runCallback000 r).failed = true → (runCallback000 r).docPath = none)
    ∧ (∀ r, (runCallback004 r).docPath = some (trimWs r.stdout)) := by
  constructor
  · intro r h
    unfold runCallback000 at h ⊢
    by_cases he : r.exitError.isSome
    · simp [he]
    · by_cases hs : r.stderr.isEmpty <;> simp [he, hs] at h ⊢
  · intro r
    rfl

/-- Witness for the amended C3 at a concrete failing run. -/
theorem failure_reports_no_path_witness :
    (runCallback000 ⟨some 1, okStdout, []⟩).docPath = none :=
  failure_reports_no_path.1 _ (by decide)

/-- Claim C4: the action metadata declares exactly the five documented inputs,
with GITHUB_TOKEN and repositories required and the three optional inputs
carrying defaults true, `[]` and false respectively. -/
theorem action_inputs_contract :
    actionInputs.map ActionInput.name
        = ["GITHUB_TOKEN".toList, "repositories".toList, "project-state-mining".toList,
           "projects-title-filter".toList, "milestones-as-chapters".toList]
    ∧ findInput ("GITHUB_TOKEN".toList)
        = some { name := "GITHUB_TOKEN".toList, required := true, dflt := none }
    ∧ findInput ("repositories".toList)
        = some { name := "repositories".toList, required := true, dflt := none }
    ∧ findInput ("project-state-mining".toList)
        = some { name := "project-state-mining".toList, required := false, dflt := some ("true".toList) }
    ∧ findInput ("projects-title-filter".toList)
        = some { name := "projects-title-filter".toList, required := false, dflt := some ("[]".toList) }
    ∧ findInput ("milestones-as-chapters".toList)
        = some { name := "milestones-as-chapters".toList, required := false, dflt := some ("false".toList) } := by
  decide

/-- Claim C5: the command line is the verbatim interpolation of the five raw
inputs between fixed literal segments — no escaping or validation — and on a
token containing a double quote the shell's field splitting of the built
command no longer yields the intended argument vector, while quote-free
inputs do split as intended. -/
theorem command_injection :
    (∀ script tok psm ptf mac repos, buildCommand script tok psm ptf mac repos
        = cmdSeg0 ++ script ++ cmdSeg1 ++ tok ++ cmdSeg2 ++ psm ++ cmdSeg3 ++ ptf
            ++ cmdSeg4 ++ mac ++ cmdSeg5 ++ repos ++ cmdSeg6)
    ∧ shellFields (buildCommand cScript cTokenQ cPsm cPtf cMac cRepos)
        ≠ intendedArgv cScript cTokenQ cPsm cPtf cMac cRepos
    ∧ shellFields (buildCommand cScript ("ghp-token".toList) cPsm cPtf cMac cRepos)
        = intendedArgv cScript ("ghp-token".toList) cPsm cPtf cMac cRepos := by
  exact ⟨fun _ _ _ _ _ _ => rfl, by decide, by decide⟩

/-- Claim C6: exactly two summary page kinds exist; each template contains
`{table-of-contents}` and `{date}`, the Issue Summary template contains
`{issues}` and the Feature Summary template contains `{features}`; rendering
replaces each token with the supplied generated content (checked on concrete
content: after rendering the tokens are gone and the content is present). -/
theorem summary_templates_contract :
    summaryTemplates.length = 2
    ∧ (containsSub tocToken issueSummaryTemplate = true
        ∧ containsSub dateToken issueSummaryTemplate = true
        ∧ containsSub issuesToken issueSummaryTemplate = true)
    ∧ (containsSub tocToken featureSummaryTemplate = true
        ∧ containsSub dateToken featureSummaryTemplate = true
        ∧ containsSub featuresToken featureSummaryTemplate = true)
    ∧ (containsSub tocToken
          (renderIssueSummary issueSummaryTemplate ("TOC-CONTENT".toList) ("ISSUES-CONTENT".toList) ("2024-05-01".toList)) = false
        ∧ containsSub issuesToken
          (renderIssueSummary issueSummaryTemplate ("TOC-CONTENT".toList) ("ISSUES-CONTENT".toList) ("2024-05-01".toList)) = false
        ∧ containsSub dateToken
          (renderIssueSummary issueSummaryTemplate ("TOC-CONTENT".toList) ("ISSUES-CONTENT".toList) ("2024-05-01".toList)) = false
        ∧ containsSub ("TOC-CONTENT".toList)
          (renderIssueSummary issueSummaryTemplate ("TOC-CONTENT".toList) ("ISSUES-CONTENT".toList) ("2024-05-01".toList)) = true
        ∧ containsSub ("ISSUES-CONTENT".toList)
          (renderIssueSummary issueSummaryTemplate ("TOC-CONTENT".toList) ("ISSUES-CONTENT".toList) ("2024-05-01".toList)) = true
        ∧ containsSub ("2024-05-01".toList)
          (renderIssueSummary issueSummaryTemplate ("TOC-CONTENT".toList) ("ISSUES-CONTENT".toList) ("2024-05-01".toList)) = true)
    ∧ (containsSub tocToken
          (renderFeatureSummary featureSummaryTemplate ("TOC-CONTENT".toList) ("FEATURES-CONTENT".toList) ("2024-05-01".toList)) = false
        ∧ containsSub featuresToken
          (renderFeatureSummary featureSummaryTemplate ("TOC-CONTENT".toList) ("FEATURES-CONTENT".toList) ("2024-05-01".toList)) = false
        ∧ containsSub dateToken
          (renderFeatureSummary featureSummaryTemplate ("TOC-CONTENT".toList) ("FEATURES-CONTENT".toList) ("2024-05-01".toList)) = false
        ∧ containsSub ("TOC-CONTENT".toList)
          (renderFeatureSummary featureSummaryTemplate ("TOC-CONTENT".toList) ("FEATURES-CONTENT".toList) ("2024-05-01".toList)) = true
        ∧ containsSub ("FEATURES-CONTENT".toList)
          (renderFeatureSummary featureSummaryTemplate ("TOC-CONTENT".toList) ("FEATURES-CONTENT".toList) ("2024-05-01".toList)) = true
        ∧ containsSub ("2024-05-01".toList)
          (renderFeatureSummary featureSummaryTemplate ("TOC-CONTENT".toList) ("FEATURES-CONTENT".toList) ("2024-05-01".toList)) = true) := by
  decide

/-- Claim C7: an empty projects-title-filter retains every ProjectItem; a
non-empty filter retains exactly those ProjectItems whose project title is a
member of the filter (case-sensitive exact match); and consolidation keeps
every Issue regardless of how many of its ProjectItems were discarded. -/
theorem title_filter_contract :
    (∀ items, filterProjectItems [] items = items)
    ∧ (∀ tf items it, tf ≠ [] →
        (it ∈ filterProjectItems tf items ↔ it ∈ items ∧ it.projectTitle ∈ tf))
    ∧ (∀ tf issues items,
        (consolidate tf issues items).map ConsolidatedFeature.issue = issues) := by
  refine ⟨fun items => by simp [filterProjectItems], fun tf items it htf => ?_, fun tf issues items => ?_⟩
  · simp [filterProjectItems, htf, List.mem_filter]
  · simp only [consolidate, List.map_map]
    exact List.map_id issues

/-- Witness for C7 at a concrete non-empty filter. -/
theorem title_filter_contract_witness :
    itemA ∈ filterProjectItems ["Project X".toList] [itemA]
      ↔ itemA ∈ [itemA] ∧ itemA.projectTitle ∈ ["Project X".toList] :=
  title_filter_contract.2.1 ["Project X".toList] [itemA] itemA (by decide)

theorem groupByMilestone_true (fs : List ConsolidatedFeature) :
    groupByMilestone true fs = List.insertionSort chapterRel (buildChapters (sortFeatures fs)) := rfl

theorem groupByMilestone_false (fs : List ConsolidatedFeature) :
    groupByMilestone false fs
      = [{ title := flatChapterTitle, dueDate := none, features := sortFeatures fs }] := rfl

theorem buildChapters_map_features (fs : List ConsolidatedFeature) :
    (buildChapters fs).map Chapter.features
      = ((fs.map chapterKeyOf).dedup).map
          (fun k => fs.filter (fun f => decide (chapterKeyOf f = k))) := by
  simp [buildChapters, List.map_map]

theorem countP_eq_one_of_nodup_mem {α : Type} [DecidableEq α] {l : List α} {a : α}
    (hnd : l.Nodup) (ha : a ∈ l) : l.countP (fun b => decide (a = b)) = 1 := by
  induction l with
  | nil => cases ha
  | cons x xs ih =>
    rw [List.countP_cons]
    rcases List.mem_cons.mp ha with h | h
    · subst h
      have h0 : xs.countP (fun b => decide (a = b)) = 0 := by
        rw [List.countP_eq_zero]
        intro b hb
        simp only [decide_eq_true_eq]
        intro he
        exact (List.nodup_cons.mp hnd).1 (he ▸ hb)
      simp [h0]
    · have hne : a ≠ x := fun he => (List.nodup_cons.mp hnd).1 (he ▸ h)
      have h1 := ih (List.nodup_cons.mp hnd).2 h
      simp [h1, hne]

theorem flatten_groups (ks : List (List Char)) (fs : List ConsolidatedFeature)
    (hnd : ks.Nodup) (hcov : ∀ f ∈ fs, chapterKeyOf f ∈ ks) :
    ((ks.map (fun k => fs.filter (fun f => decide (chapterKeyOf f = k)))).flatten).Perm fs := by
  induction ks generalizing fs with
  | nil =>
    cases fs with
    | nil => simp
    | cons f fs' => exact absurd (hcov f (List.mem_cons_self f fs')) (List.not_mem_nil _)
  | cons k ks ih =>
    simp only [List.map_cons, List.flatten_cons]
    have hk : k ∉ ks := (List.nodup_cons.mp hnd).1
    have hnd' : ks.Nodup := (List.nodup_cons.mp hnd).2
    have hmap : ks.map (fun k2 => fs.filter (fun f => decide (chapterKeyOf f = k2)))
        = ks.map (fun k2 => (fs.filter (fun f => !(decide (chapterKeyOf f = k)))).filter
            (fun f => decide (chapterKeyOf f = k2))) := by
      apply List.map_congr_left
      intro k2 hk2
      rw [List.filter_filter]
      apply List.filter_congr
      intro f _
      by_cases h : chapterKeyOf f = k2
      · have hne2 : ¬(k2 = k) := fun he => hk (he ▸ hk2)
        simp [h, hne2]
      · simp [h]
    rw [hmap]
    have hcov' : ∀ f ∈ fs.filter (fun f => !(decide (chapterKeyOf f = k))),
        chapterKeyOf f ∈ ks := by
      intro f hf
      rw [List.mem_filter] at hf
      have hne : ¬(chapterKeyOf f = k) := by simpa using hf.2
      rcases List.mem_cons.mp (hcov f hf.1) with he | hm
      · exact absurd he hne
      · exact hm
    exact ((ih _ hnd' hcov').append_left _).trans (List.filter_append_perm _ fs)

/-- Claim C8: chapter membership partitions the consolidated features — the
concatenation of all chapters' members is a permutation of the feature list,
every feature lies in exactly one chapter, features lacking a milestone land
in the designated Unassigned chapter when milestones-as-chapters is true, and
a single flat chapter holds everything when it is false. -/
theorem chapters_partition (mac : Bool) (fs : List ConsolidatedFeature) :
    (((groupByMilestone mac fs).map Chapter.features).flatten).Perm fs
    ∧ (∀ f, f ∈ fs →
        (groupByMilestone mac fs).countP (fun c => decide (f ∈ c.features)) = 1)
    ∧ (∀ f, f ∈ fs → f.issue.milestone = none →
        ∃ c, c ∈ groupByMilestone true fs ∧ c.title = unassignedTitle ∧ f ∈ c.features)
    ∧ (groupByMilestone false fs).length = 1 := by
  have hps : (sortFeatures fs).Perm fs := List.perm_insertionSort _ fs
  have hksnd : ((sortFeatures fs).map chapterKeyOf).dedup.Nodup := List.nodup_dedup _
  have hcov : ∀ f ∈ sortFeatures fs,
      chapterKeyOf f ∈ ((sortFeatures fs).map chapterKeyOf).dedup :=
    fun f hf => List.mem_dedup.mpr (List.mem_map_of_mem _ hf)
  have hperm_true : (((groupByMilestone true fs).map Chapter.features).flatten).Perm fs := by
    rw [groupByMilestone_true]
    refine
      (((List.perm_insertionSort chapterRel (buildChapters (sortFeatures fs))).map
          Chapter.features).flatten).trans ?_
    rw [buildChapters_map_features]
    exact (flatten_groups _ _ hksnd hcov).trans hps
  have hunassigned : ∀ f, f ∈ fs → f.issue.milestone = none →
      ∃ c, c ∈ groupByMilestone true fs ∧ c.title = unassignedTitle ∧ f ∈ c.features := by
    intro f hf hm
    have hkey : chapterKeyOf f = unassignedTitle := by
      simp [chapterKeyOf, hm]
    have hfs : f ∈ sortFeatures fs := by
      unfold sortFeatures
      rw [List.mem_insertionSort]
      exact hf
    refine ⟨{ title := chapterKeyOf f
              dueDate := chapterDueOf (sortFeatures fs) (chapterKeyOf f)
              features := (sortFeatures fs).filter
                (fun g => decide (chapterKeyOf g = chapterKeyOf f)) }, ?_, ?_, ?_⟩
    · rw [groupByMilestone_true, List.mem_insertionSort]
      exact List.mem_map_of_mem _ (hcov f hfs)
    · exact hkey
    · rw [List.mem_filter]
      exact ⟨hfs, by simp⟩
  cases mac with
  | false =>
    refine ⟨?_, ?_, hunassigned, by simp [groupByMilestone_false]⟩
    · rw [groupByMilestone_false]
      simpa using hps
    · intro f hf
      have hfs : f ∈ sortFeatures fs := by
        unfold sortFeatures
        rw [List.mem_insertionSort]
        exact hf
      rw [groupByMilestone_false]
      simp [List.countP_cons, hfs]
  | true =>
    refine ⟨hperm_true, ?_, hunassigned, by simp [groupByMilestone_false]⟩
    intro f hf
    have hfs : f ∈ sortFeatures fs := by
      unfold sortFeatures
      rw [List.mem_insertionSort]
      exact hf
    rw [groupByMilestone_true]
    rw [(List.perm_insertionSort chapterRel (buildChapters (sortFeatures fs))).countP_eq]
    unfold buildChapters
    rw [List.countP_map]
    have hcong : ((sortFeatures fs).map chapterKeyOf).dedup.countP
          ((fun c => decide (f ∈ c.features)) ∘ (fun k =>
            ({ title := k
               dueDate := chapterDueOf (sortFeatures fs) k
               features := (sortFeatures fs).filter
                 (fun g => decide (chapterKeyOf g = k)) } : Chapter)))
        = ((sortFeatures fs).map chapterKeyOf).dedup.countP
            (fun k => decide (chapterKeyOf f = k)) := by
      apply List.countP_congr
      intro k _
      simp only [Function.comp, decide_eq_true_eq, List.mem_filter, hfs, true_and]
    rw [hcong]
    exact countP_eq_one_of_nodup_mem hksnd (hcov f hfs)

/-- Witness for C8 at a concrete two-feature scenario (one milestone, one
unassigned). -/
theorem chapters_partition_witness :
    (groupByMilestone true [featA, featU]).countP
        (fun c => decide (featU ∈ c.features)) = 1
    ∧ ∃ c, c ∈ groupByMilestone true [featA, featU]
        ∧ c.title = unassignedTitle ∧ featU ∈ c.features :=
  ⟨(chapters_partition true [featA, featU]).2.1 featU (by decide),
   (chapters_partition true [featA, featU]).2.2.1 featU (by decide) (by decide)⟩

theorem sorted_key_unique {α κ : Type} [LinearOrder κ] (key : α → κ) {l₁ l₂ : List α}
    (hp : l₁.Perm l₂)
    (hs₁ : List.Sorted (fun a b => key a ≤ key b) l₁)
    (hs₂ : List.Sorted (fun a b => key a ≤ key b) l₂)
    (hnd : (l₁.map key).Nodup) : l₁ = l₂ := by
  induction l₁ generalizing l₂ with
  | nil => exact (List.Perm.eq_nil hp.symm).symm
  | cons a t₁ ih =>
    cases l₂ with
    | nil => exact absurd hp.eq_nil (List.cons_ne_nil a t₁)
    | cons b t₂ =>
      have hab : a ∈ b :: t₂ := hp.subset (List.mem_cons_self a t₁)
      have hba : b ∈ a :: t₁ := hp.symm.subset (List.mem_cons_self b t₂)
      have heq : a = b := by
        rcases List.mem_cons.mp hab with h | ha2
        · exact h
        rcases List.mem_cons.mp hba with h | hb1
        · exact h.symm
        have h1 : key a ≤ key b := List.rel_of_sorted_cons hs₁ b hb1
        have h2 : key b ≤ key a := List.rel_of_sorted_cons hs₂ a ha2
        exact List.inj_on_of_nodup_map hnd (List.mem_cons_self a t₁) hba (le_antisymm h1 h2)
      subst heq
      have hnd' : (t₁.map key).Nodup := by
        rw [List.map_cons] at hnd
        exact (List.nodup_cons.mp hnd).2
      rw [ih hp.cons_inv hs₁.of_cons hs₂.of_cons hnd']

theorem sortFeatures_eq_of_perm {fs₁ fs₂ : List ConsolidatedFeature}
    (hp : fs₁.Perm fs₂) (hnd : (fs₁.map featKey).Nodup) :
    sortFeatures fs₁ = sortFeatures fs₂ := by
  apply sorted_key_unique featKey
  · exact (List.perm_insertionSort _ fs₁).trans (hp.trans (List.perm_insertionSort _ fs₂).symm)
  · exact List.sorted_insertionSort featureRel fs₁
  · exact List.sorted_insertionSort featureRel fs₂
  · exact hnd.perm ((List.perm_insertionSort featureRel fs₁).map featKey).symm

theorem featKey_consolidate_nodup (tf : List (List Char)) (issues : List Issue)
    (items : List ProjectItem) (hnd : (issues.map issueKey).Nodup) :
    ((consolidate tf issues items).map featKey).Nodup := by
  have hinj : Function.Injective
      (fun p : List Char × List Char × Nat => toLex (p.1, toLex (p.2.1, p.2.2))) := by
    intro p q h
    have h1 := toLex.injective h
    have h2 : p.1 = q.1 := congrArg Prod.fst h1
    have h3 := toLex.injective (congrArg Prod.snd h1)
    exact Prod.ext h2 (Prod.ext (congrArg Prod.fst h3) (congrArg Prod.snd h3))
  have hmap : (consolidate tf issues items).map featKey
      = (issues.map issueKey).map (fun p => toLex (p.1, toLex (p.2.1, p.2.2))) := by
    simp only [consolidate, List.map_map]
    rfl
  rw [hmap]
  exact hnd.map hinj

/-- Claim C9: the pipeline from mined input to rendered markdown is
deterministic: the rendered pages are a pure function of the configuration,
the date, and the mined data as a set — for mined issue lists with distinct
composite identities (spec invariant 1), any two arrival orders of the same
mined issues produce byte-identical pages, with identical chapter and feature
ordering in particular. -/
theorem pipeline_deterministic (cfg : MinedConfig) (date : List Char)
    (items : List ProjectItem) (issues₁ issues₂ : List Issue)
    (hp : issues₁.Perm issues₂) (hnd : (issues₁.map issueKey).Nodup) :
    renderDocumentation cfg date issues₁ items = renderDocumentation cfg date issues₂ items := by
  have hsort : sortFeatures (consolidate cfg.titleFilter issues₁
        (if cfg.projectStateMining then items else []))
      = sortFeatures (consolidate cfg.titleFilter issues₂
        (if cfg.projectStateMining then items else [])) := by
    apply sortFeatures_eq_of_perm
    · exact hp.map _
    · exact featKey_consolidate_nodup _ _ _ hnd
  have hgroup : groupByMilestone cfg.milestonesAsChapters
        (consolidate cfg.titleFilter issues₁ (if cfg.projectStateMining then items else []))
      = groupByMilestone cfg.milestonesAsChapters
        (consolidate cfg.titleFilter issues₂ (if cfg.projectStateMining then items else [])) := by
    unfold groupByMilestone
    rw [hsort]
  unfold renderDocumentation
  rw [hgroup]

/-- Witness for C9: two arrival orders of the same two mined issues render
the same pages. -/
theorem pipeline_deterministic_witness :
    renderDocumentation ⟨true, [], true⟩ ("2024-05-01".toList) [issueA, issueB] [itemA]
      = renderDocumentation ⟨true, [], true⟩ ("2024-05-01".toList) [issueB, issueA] [itemA] :=
  pipeline_deterministic ⟨true, [], true⟩ ("2024-05-01".toList) [itemA] [issueA, issueB]
    [issueB, issueA] (List.Perm.swap issueB issueA []) (by decide)

theorem parseRepoObj_isOk (ms : List (List Char × Json)) :
    (parseRepoObj ms).isOk
      = !(match repoShapeObj ms with
          | none => true
          | some rd => rd.queryLabels.isEmpty) := by
  unfold parseRepoObj repoShapeObj
  cases h1 : getMember ("orgName".toList) ms with
  | none => rfl
  | some j1 =>
    cases j1 with
    | str org =>
      cases h2 : getMember ("repoName".toList) ms with
      | none => rfl
      | some j2 =>
        cases j2 with
        | str repo =>
          cases h3 : getMember ("queryLabels".toList) ms with
          | none => rfl
          | some j3 =>
            cases j3 with
            | arr ls =>
              cases h4 : asStringList ls with
              | none => simp [h4, Except.isOk, Except.toBool]
              | some labels =>
                cases labels with
                | nil => simp [h4, Except.isOk, Except.toBool]
                | cons l ls2 => simp [h4, Except.isOk, Except.toBool]
            | str s => rfl
            | num n => rfl
            | boolean b => rfl
            | null => rfl
            | obj ms2 => rfl
        | num n => rfl
        | boolean b => rfl
        | null => rfl
        | arr es2 => rfl
        | obj ms2 => rfl
    | num n => rfl
    | boolean b => rfl
    | null => rfl
    | arr es2 => rfl
    | obj ms2 => rfl

theorem parseRepo_isOk (j : Json) : (parseRepo j).isOk = !entryBad j := by
  cases j with
  | str s => rfl
  | num n => rfl
  | boolean b => rfl
  | null => rfl
  | arr es => rfl
  | obj ms => exact parseRepoObj_isOk ms

theorem parseRepos_isOk (es : List Json) : (parseRepos es).isOk = !es.any entryBad := by
  induction es with
  | nil => rfl
  | cons j js ih =>
    simp only [parseRepos, List.any_cons]
    cases hj : parseRepo j with
    | error e =>
      have h := parseRepo_isOk j
      rw [hj] at h
      simp only [Except.isOk, Except.toBool] at h
      have hb : entryBad j = true := by
        cases hb : entryBad j
        · rw [hb] at h; simp at h
        · rfl
      simp [Except.isOk, Except.toBool, hb]
    | ok r =>
      have h := parseRepo_isOk j
      rw [hj] at h
      simp only [Except.isOk, Except.toBool] at h
      have hb : entryBad j = false := by
        cases hb : entryBad j
        · rfl
        · rw [hb] at h; simp at h
      cases hjs : parseRepos js with
      | error e2 =>
        rw [hjs] at ih
        simp only [Except.isOk, Except.toBool] at ih ⊢
        simp only [hb, Bool.false_or]
        exact ih
      | ok rs =>
        rw [hjs] at ih
        simp only [Except.isOk, Except.toBool] at ih ⊢
        simp only [hb, Bool.false_or]
        exact ih

theorem parseRepos_nil_iff (es : List Json) (rs : List RepoDescriptor)
    (h : parseRepos es = .ok rs) : rs = [] ↔ es = [] := by
  cases es with
  | nil =>
    have : rs = [] := by
      simp only [parseRepos] at h
      cases h
      rfl
    simp [this]
  | cons j js =>
    have hex : ∃ r rs2, rs = r :: rs2 := by
      simp only [parseRepos] at h
      cases hj : parseRepo j with
      | error e => rw [hj] at h; cases h
      | ok r =>
        rw [hj] at h
        cases hjs : parseRepos js with
        | error e2 => rw [hjs] at h; cases h
        | ok rs2 =>
          rw [hjs] at h
          cases h
          exact ⟨r, rs2, rfl⟩
    rcases hex with ⟨r, rs2, hrr⟩
    subst hrr
    simp

/-- Claim C10 counterexample: the empty repositories array `[]` makes the
resolver fail with a ConfigError although it is syntactically valid JSON, has
no entry missing a key, and has no entry with an empty label set — so the
claimed "fails if and only if" list of conditions is refuted. -/
theorem config_validation_counterexample :
    ¬ ((resolveRepositories emptyArrInput).isOk = false
        ↔ claimedFailCond emptyArrInput = true) := by
  decide

/-- Claim C10 (amended): resolving the repositories input fails with a
ConfigError if and only if the input is malformed JSON (or not a JSON array),
an entry is missing a required key or otherwise ill-formed, an entry has an
empty label set, or — beyond the claim's original list — the array is empty;
the error names the offending field (checked per failure kind on concrete
inputs), and validation is a pure function without network access. -/
theorem config_validation :
    (∀ raw, (resolveRepositories raw).isOk = false
        ↔ (claimedFailCond raw = true ∨ parsedEmptyArr raw = true))
    ∧ resolveRepositories jsonMalformed
        = .error ⟨"repositories".toList, "malformed JSON".toList⟩
    ∧ resolveRepositories jsonMissingKey
        = .error ⟨"repoName".toList, "missing required key".toList⟩
    ∧ resolveRepositories jsonEmptyLabels
        = .error ⟨"queryLabels".toList, "empty label set".toList⟩
    ∧ resolveRepositories emptyArrInput
        = .error ⟨"repositories".toList, "must be non-empty".toList⟩
    ∧ (resolveRepositories jsonValidRepos).isOk = true := by
  refine ⟨fun raw => ?_, by decide, by decide, by decide, by decide, by decide⟩
  unfold resolveRepositories claimedFailCond parsedEmptyArr
  cases hp : parseJson raw with
  | none => simp [Except.isOk, Except.toBool]
  | some j =>
    cases j with
    | str s => simp [Except.isOk, Except.toBool]
    | num n => simp [Except.isOk, Except.toBool]
    | boolean b => simp [Except.isOk, Except.toBool]
    | null => simp [Except.isOk, Except.toBool]
    | obj ms => simp [Except.isOk, Except.toBool]
    | arr es =>
      cases hr : parseRepos es with
      | error e =>
        have h := parseRepos_isOk es
        rw [hr] at h
        simp only [Except.isOk, Except.toBool] at h
        have hb : es.any entryBad = true := by
          cases hb : es.any entryBad
          · rw [hb] at h; simp at h
          · rfl
        simp [Except.isOk, Except.toBool, hb, hr]
      | ok rs =>
        have h := parseRepos_isOk es
        rw [hr] at h
        simp only [Except.isOk, Except.toBool] at h
        have hb : es.any entryBad = false := by
          cases hb : es.any entryBad
          · rfl
          · rw [hb] at h; simp at h
        by_cases hrs : rs = []
        · have hes : es = [] := (parseRepos_nil_iff es rs hr).mp hrs
          subst hes
          simp [hrs, Except.isOk, Except.toBool, hb, hr]
        · have hes : es ≠ [] := fun he => hrs ((parseRepos_nil_iff es rs hr).mpr he)
          cases es with
          | nil => exact absurd rfl hes
          | cons e es2 => simp [hrs, Except.isOk, Except.toBool, hb, hr]

end LivingDoc
